import Mathlib

/-!
# Verification of the SpookyID / Multipass cryptographic core

This file is a shallow embedding, in Lean 4, of the Rust sources of the
`multipass` repository (`src/lib.rs`, `src/miner.rs`), together with theorems
settling the frozen claims C1..C10 about them.

## Modelling conventions

* The BLS12-381 scalar field is `Sc := ZMod rBLS` where `rBLS` is the prime
  order of the groups `G1`, `G2`, `GT` used by the `bls12_381` crate.
* `G1`, `G2` and `GT` are cyclic of the same prime order `rBLS`, so every
  point is a scalar multiple of the fixed generator.  We therefore represent a
  group element by its discrete logarithm with respect to that generator: a
  `G1` point is an `Sc` (the generator `g1` itself is `1`, addition of points
  is `+`, scalar multiplication is `*`, the identity is `0`), and similarly
  for `G2`.  The pairing `e(P, Q)` is represented by the discrete logarithm of
  its result with respect to `e(g1, g2)` (a generator of `GT`, since the
  pairing is non-degenerate), i.e. by the product of the two logarithms, and
  equality of pairing values is equality in `Sc`.  This representation is
  sound and complete for the point and pairing equalities the code tests.
* Byte strings are `Bytes := List ℕ`.  Scalar byte decoding
  (`Scalar::from_bytes`, canonical 32-byte little-endian, value `< rBLS`) and
  encoding (`Scalar::to_bytes`) are implemented concretely.  SHA-256 and the
  compressed point codecs (`from_compressed` / `to_compressed`) are not
  re-implemented; they enter as explicit function parameters (`sha`, `g1P`,
  `g2P`, `g1Ser`) of the definitions that use them, so every theorem is
  quantified over (or instantiated at) those primitives.
* Randomness (`get_entropy`, `Scalar::random`, `thread_rng`) is passed in as
  explicit scalar arguments or as a stream `ℕ → Sc`.
* Rust functions returning `Result<T, VerifyError>` become `RResult T`; an
  out-of-bounds slice index (which panics in Rust) is modelled by the
  `RResult.panicked` outcome.
-/

/-- Order of the BLS12-381 scalar field (the modulus of `bls12_381::Scalar`). -/
def rBLS : ℕ := 52435875175126190479447740508185965837690552500527637822603658699938581184513

/-- The scalar field; also the discrete-log representation of `G1`/`G2`/`GT`
elements (see the module docstring). -/
abbrev Sc := ZMod rBLS

/-- Byte strings (each entry is one byte value). -/
abbrev Bytes := List ℕ

/-- Little-endian value of a byte string. -/
def leNat : Bytes → ℕ
  | [] => 0
  | b :: bs => b + 256 * leNat bs

/-- Little-endian encoding of `v` on `w` bytes (`u32::to_le_bytes`,
`u64::to_le_bytes`, `Scalar::to_bytes`). -/
def natToLE : ℕ → ℕ → Bytes
  | 0, _ => []
  | w + 1, v => v % 256 :: natToLE w (v / 256)

/-- `Scalar::from_bytes`: canonical little-endian decoding of exactly 32
bytes, defined only when the value is below the field order. -/
def scalarFromBytes (b : Bytes) : Option Sc :=
  if b.length = 32 ∧ leNat b < rBLS then some ((leNat b : ℕ) : Sc) else none

/-- `Scalar::to_bytes`: canonical 32-byte little-endian encoding. -/
def scalarToBytes (s : Sc) : Bytes := natToLE 32 s.val

/-- The error enum `VerifyError` of `lib.rs`. -/
inductive VerifyError
  | InvalidKey
  | InvalidSignature
  | CryptoError
deriving DecidableEq

/-- Outcome of a Rust function returning `Result<α, VerifyError>`:
`panicked` models a Rust panic (out-of-bounds slice index). -/
inductive RResult (α : Type)
  | panicked
  | rerr (e : VerifyError)
  | rok (a : α)
deriving DecidableEq

/-- `hash_to_scalar` (lib.rs 32-45): SHA-256 the data, then decode the
32-byte digest canonically, substituting `Scalar::ONE` when the digest is not
a canonical scalar.  `sha` abstracts SHA-256. -/
def hashToScalar (sha : Bytes → Bytes) (data : Bytes) : Sc :=
  match scalarFromBytes (sha data) with
  | some s => s
  | none => 1

/-- The pairing in discrete-log representation: `e(g1·p, g2·q) = e(g1,g2)^(p·q)`. -/
def pairingDL (p q : Sc) : Sc := p * q

/-- Sum `Σ h_{i+1} · m_i` over messages, mirroring the loops of
lib.rs 132-136 / 240-244: the guard `i + 1 < h_values.len()` is the zip of
the generator tail with the message scalars. -/
def sumHM : List Sc → List Sc → Sc
  | h :: hs, m :: ms => h * m + sumHM hs ms
  | _, _ => 0

/-- `B = g1 + h0·s + Σ h_i·m_i` (lib.rs 126-136 and 233-244); when the
generator list is empty both loops contribute nothing. -/
def bValue : List Sc → Sc → List Sc → Sc
  | [], _, _ => 1
  | h0 :: hs, s, msgScalars => 1 + h0 * s + sumHM hs msgScalars

/-- A parsed BBS+ signature triple `(A, e, s)`. -/
structure BbsSig where
  a : Sc
  e : Sc
  s : Sc
deriving DecidableEq

/-- `sign` (lib.rs 93-148) after the byte-level parsing of `sk` and the
generators: the entropy draws for `e` and `s` are the parameters `e`, `s`.
Note line 140: a non-invertible `sk + e` is replaced by
`invert().unwrap_or(Scalar::ONE)` — the code does not resample. -/
def signModel (sha : Bytes → Bytes) (sk : Sc) (hValues : List Sc)
    (messages : List Bytes) (e s : Sc) : RResult BbsSig :=
  if hValues.length < messages.length + 1 then .rerr .InvalidKey
  else
    let msgScalars := messages.map (hashToScalar sha)
    let b := bValue hValues s msgScalars
    let skPlusE := sk + e
    let inv : Sc := if skPlusE = 0 then 1 else skPlusE⁻¹
    .rok ⟨b * inv, e, s⟩

/-- `verify_signature_safe` (lib.rs 170-251) after byte-level parsing:
`w` is the discrete log of the `G2` public-key point (i.e. `sk` for an
honestly generated key).  Checks `e(A, w + g2·e) == e(B, g2)`. -/
def verifySignatureModel (sha : Bytes → Bytes) (w : Sc) (hValues : List Sc)
    (sig : BbsSig) (messages : List Bytes) : RResult Bool :=
  if hValues.length < messages.length + 1 then .rerr .InvalidKey
  else
    let msgScalars := messages.map (hashToScalar sha)
    let b := bValue hValues sig.s msgScalars
    .rok (decide (pairingDL sig.a (w + sig.e) = pairingDL b 1))

/-- `generate_linkage_tag` (lib.rs 56-62): `site_id` is hashed once with
SHA-256, the digest is fed to `hash_to_scalar`, and the tag is
`g1 · (sk + site_scalar)` (in discrete-log representation `1 * (sk + site_scalar)`). -/
def generateLinkageTag (sha : Bytes → Bytes) (sk : Sc) (siteId : Bytes) : Sc :=
  let siteScalar := hashToScalar sha (sha siteId)
  (1 : Sc) * (sk + siteScalar)

/-- Modelled from the spec: the linkage-tag formula
`(sk + HashToScalar(SHA-256(site_id)))·g1` as written in the specification,
for comparison with the source definition `generateLinkageTag`. -/
def linkageTagSpec (sha : Bytes → Bytes) (sk : Sc) (siteId : Bytes) : Sc :=
  (sk + hashToScalar sha (sha siteId)) * (1 : Sc)

/-- The fields of a serialized proof (lib.rs 387-397):
`A' || Abar || ẽ || d || c || linkage_tag || r_count || responses`. -/
structure ProofRec where
  aPrime : Sc
  abar : Sc
  eTilde : Sc
  d : Sc
  challenge : Sc
  linkageTag : Sc
  responses : List Sc
deriving DecidableEq

/-- Challenge transcript bytes built by the prover (lib.rs 362-369):
`A' || Abar || d || nonce? || linkage_tag || alias_index_LE(8) || freshness?`,
optional fields omitted when absent.  `g1Ser` abstracts `to_compressed`. -/
def challengeDataP (g1Ser : Sc → Bytes) (aPrime abar d linkageTag : Sc)
    (nonce : Option Bytes) (aliasIndex : ℕ) (freshnessClaim : Option Bytes) : Bytes :=
  g1Ser aPrime ++ g1Ser abar ++ scalarToBytes d ++ nonce.getD [] ++
    g1Ser linkageTag ++ natToLE 8 aliasIndex ++ freshnessClaim.getD []

/-- `create_proof` (lib.rs 269-400) after the byte-level parsing of the
public key and signature.  Entropy: `r1`, `r2ent` are the two
`from_bytes_wide(get_entropy())` draws of lines 319-322, and `draws k` is the
`k`-th hidden-message blinding draw of lines 349-350.  `hwSecret` is the
`get_hardware_secret(b"LinkageTag")` output used when no blinding factor is
given.  The per-message commitments (lines 342-359) are dead code — they are
neither serialized nor hashed — and are omitted here. -/
def createProofModel (sha : Bytes → Bytes) (g1Ser : Sc → Bytes)
    (hValues : List Sc) (sig : BbsSig) (messages : List Bytes)
    (revealedIndices : List ℕ) (nonce : Option Bytes) (siteId : Bytes)
    (aliasIndex : ℕ) (blindingFactor : Option Bytes)
    (freshnessClaim : Option Bytes) (hwSecret : Bytes)
    (r1 r2ent : Sc) (draws : ℕ → Sc) : RResult ProofRec :=
  let msgScalars := messages.map (hashToScalar sha)
  let skScalar :=
    match blindingFactor with
    | some bf => hashToScalar sha bf
    | none => hashToScalar sha hwSecret
  let linkageTag := generateLinkageTag sha skScalar siteId
  let r2 :=
    match blindingFactor with
    | some bf => r2ent + hashToScalar sha bf
    | none => r2ent
  let aPrime := sig.a * r1
  let abar :=
    match hValues with
    | [] => aPrime
    | h0 :: _ => aPrime - h0 * r2
  let d := sig.s * r1 + r2
  if r1 = 0 then .rerr .CryptoError
  else
    let eTilde := sig.e * r1⁻¹
    let hidden := (List.range messages.length).filter
      (fun i => ¬ revealedIndices.contains i)
    let challenge := hashToScalar sha
      (challengeDataP g1Ser aPrime abar d linkageTag nonce aliasIndex freshnessClaim)
    let responses := hidden.enum.map
      (fun ki => draws ki.1 + challenge * msgScalars.getD ki.2 0)
    .rok ⟨aPrime, abar, eTilde, d, challenge, linkageTag, responses⟩

/-- Everything `verify_proof_safe` has parsed before its checks run:
the public-key point `w`, the generator list, the seven proof fields and the
revealed `(index, content)` pairs. -/
structure ParsedProof where
  w : Sc
  hValues : List Sc
  aPrime : Sc
  abar : Sc
  eTilde : Sc
  d : Sc
  challenge : Sc
  linkageTag : Sc
  responses : List Sc
  revealed : List (ℕ × Bytes)
deriving DecidableEq

/-- First loop of the verifier commitment recomputation (lib.rs 526-535):
walks hidden indices, consuming one response per index that also has a
generator.  Arguments: remaining indices, current `resp_idx`, accumulator. -/
def cRecFirstLoop (hValues : List Sc) (revealedIdxs : List ℕ)
    (responses : List Sc) : List ℕ → ℕ → Sc → Sc
  | [], _, acc => acc
  | i :: is, respIdx, acc =>
    if ¬ revealedIdxs.contains i then
      if respIdx < responses.length ∧ i + 1 < hValues.length then
        cRecFirstLoop hValues revealedIdxs responses is (respIdx + 1)
          (acc + hValues.getD (i + 1) 0 * responses.getD respIdx 0)
      else cRecFirstLoop hValues revealedIdxs responses is respIdx acc
    else cRecFirstLoop hValues revealedIdxs responses is respIdx acc

/-- `c_recomputed` (lib.rs 522-542).  The verifier computes this value but
never uses it afterwards: it does not enter the challenge transcript nor the
pairing check. -/
def cRecomputedModel (hValues : List Sc) (total : ℕ) (revealedIdxs : List ℕ)
    (responses : List Sc) (challenge : Sc) (revealedScalars : List Sc) : Sc :=
  let base := cRecFirstLoop hValues revealedIdxs responses (List.range total) 0 0
  (revealedIdxs.zip revealedScalars).foldl
    (fun acc p =>
      if p.1 + 1 < hValues.length then
        acc - hValues.getD (p.1 + 1) 0 * (challenge * p.2)
      else acc)
    base

/-- Sum of `h_{idx+1} · m_idx` over revealed pairs (lib.rs 587-591); a pair
whose index has no matching generator is skipped. -/
def revealedSum (hValues : List Sc) (pairs : List (ℕ × Sc)) : Sc :=
  pairs.foldl
    (fun acc p =>
      if p.1 + 1 < hValues.length then acc + hValues.getD (p.1 + 1) 0 * p.2
      else acc)
    0

/-- Challenge transcript bytes recomputed by the verifier (lib.rs 545-559):
as `challengeDataP`, but the nonce is a plain byte string appended only when
non-empty. -/
def challengeDataV (g1Ser : Sc → Bytes) (pp : ParsedProof) (nonce : Bytes)
    (aliasIndex : ℕ) (freshnessClaim : Option Bytes) : Bytes :=
  g1Ser pp.aPrime ++ g1Ser pp.abar ++ scalarToBytes pp.d ++
    (if nonce.isEmpty then [] else nonce) ++
    g1Ser pp.linkageTag ++ natToLE 8 aliasIndex ++ freshnessClaim.getD []

/-- The verifier's recomputed Fiat–Shamir challenge (lib.rs 561). -/
def challengeCheckOf (sha : Bytes → Bytes) (g1Ser : Sc → Bytes)
    (pp : ParsedProof) (nonce : Bytes) (aliasIndex : ℕ)
    (freshnessClaim : Option Bytes) : Sc :=
  hashToScalar sha (challengeDataV g1Ser pp nonce aliasIndex freshnessClaim)

/-- Right-hand side of the verifier pairing check (lib.rs 579-591):
`Abar + h0·d + Σ h_{idx+1}·m_idx` over revealed messages. -/
def proofRhsSum (sha : Bytes → Bytes) (pp : ParsedProof) : Sc :=
  let withH0 :=
    match pp.hValues with
    | [] => pp.abar
    | h0 :: _ => pp.abar + h0 * pp.d
  withH0 + revealedSum pp.hValues
    (pp.revealed.map (fun p => (p.1, hashToScalar sha p.2)))

/-- The decision `verify_proof_safe` takes once parsing has succeeded
(lib.rs 511-596): compute the dead `c_recomputed`, recompute the challenge
and return `false` on mismatch, otherwise decide the pairing equality
`e(A', w + g2·ẽ) == e(Abar + h0·d + Σ h·m, g2)`. -/
def proofDecision (sha : Bytes → Bytes) (g1Ser : Sc → Bytes)
    (pp : ParsedProof) (total : ℕ) (nonce : Bytes) (aliasIndex : ℕ)
    (freshnessClaim : Option Bytes) : Bool :=
  let revealedIdxs := pp.revealed.map Prod.fst
  let revealedScalars := pp.revealed.map (fun p => hashToScalar sha p.2)
  let _cRec := cRecomputedModel pp.hValues total revealedIdxs pp.responses
    pp.challenge revealedScalars
  if pp.challenge ≠ challengeCheckOf sha g1Ser pp nonce aliasIndex freshnessClaim
  then false
  else decide (pairingDL pp.aPrime (pp.w + pp.eTilde) = pairingDL (proofRhsSum sha pp) 1)

/-- The decision `verify_signature_safe` takes once parsing has succeeded:
the pairing equality of lib.rs 246-250. -/
def signatureDecision (sha : Bytes → Bytes) (w : Sc) (hValues : List Sc)
    (sig : BbsSig) (messages : List Bytes) : Bool :=
  let b := bValue hValues sig.s (messages.map (hashToScalar sha))
  decide (pairingDL sig.a (w + sig.e) = pairingDL b 1)

/-- Rust slice `&l[a..b]`: defined only when `b ≤ l.length` (otherwise the
Rust code panics). -/
def sliceB (l : Bytes) (a b : ℕ) : Option Bytes :=
  if b ≤ l.length then some ((l.drop a).take (b - a)) else none

/-- One pass of the generator-parsing loop (lib.rs 189-198 / 282-291 /
444-453) over the bytes after the `w` point, fuelled to stay structural:
chunks of 48 bytes are decoded with `from_compressed` and silently skipped
when invalid. -/
def parseHChunksAux (g1P : Bytes → Option Sc) : ℕ → Bytes → List Sc
  | 0, _ => []
  | fuel + 1, bs =>
    if 48 ≤ bs.length then
      match g1P (bs.take 48) with
      | some h => h :: parseHChunksAux g1P fuel (bs.drop 48)
      | none => parseHChunksAux g1P fuel (bs.drop 48)
    else []

/-- The generator list parsed from a public key: every full 48-byte chunk
from offset 96 on. -/
def parseHValues (g1P : Bytes → Option Sc) (publicKey : Bytes) : List Sc :=
  parseHChunksAux g1P publicKey.length (publicKey.drop 96)

/-- The response-parsing loop of `verify_proof_safe` (lib.rs 496-509):
`count` scalars of 32 bytes each starting at `off`, failing with
`InvalidSignature` on a short buffer or a non-canonical scalar. -/
def parseResponses (proofB : Bytes) : ℕ → ℕ → RResult (List Sc)
  | 0, _ => .rok []
  | count + 1, off =>
    if off + 32 > proofB.length then .rerr .InvalidSignature
    else
      match scalarFromBytes ((proofB.drop off).take 32) with
      | none => .rerr .InvalidSignature
      | some r =>
        match parseResponses proofB count (off + 32) with
        | .rok rs => .rok (r :: rs)
        | .rerr e => .rerr e
        | .panicked => .panicked

/-- Everything `verify_signature_safe` has parsed before its pairing check. -/
structure ParsedSig where
  w : Sc
  hValues : List Sc
  a : Sc
  e : Sc
  s : Sc
deriving DecidableEq

/-- The parsing phase of `verify_signature_safe` (lib.rs 175-225): public key
(w, generators, generator count), signature length, point `A` and the two
scalars. -/
def parseSignaturePhase (g1P g2P : Bytes → Option Sc)
    (publicKey signature : Bytes) (messages : List Bytes) : RResult ParsedSig :=
  if publicKey.length < 96 then .rerr .InvalidKey
  else
    match g2P (publicKey.take 96) with
    | none => .rerr .InvalidKey
    | some w =>
      let hValues := parseHValues g1P publicKey
      if hValues.length < messages.length + 1 then .rerr .InvalidKey
      else if signature.length ≠ 112 then .rerr .InvalidSignature
      else
        match g1P (signature.take 48) with
        | none => .rerr .InvalidSignature
        | some a =>
          match scalarFromBytes ((signature.drop 48).take 32),
                scalarFromBytes ((signature.drop 80).take 32) with
          | some e, some s => .rok ⟨w, hValues, a, e, s⟩
          | _, _ => .rerr .InvalidSignature

/-- `verify_signature_safe` (lib.rs 170-251) at byte level: parse, then
return the pairing decision as a boolean. -/
def byteVerifySignature (sha : Bytes → Bytes) (g1P g2P : Bytes → Option Sc)
    (publicKey signature : Bytes) (messages : List Bytes) : RResult Bool :=
  match parseSignaturePhase g1P g2P publicKey signature messages with
  | .rok ps => .rok (signatureDecision sha ps.w ps.hValues ⟨ps.a, ps.e, ps.s⟩ messages)
  | .rerr e => .rerr e
  | .panicked => .panicked

/-- The raw byte slices of the fixed part of a proof, plus the decoded
response count. -/
structure ProofRawParts where
  aPrimeBytes : Bytes
  abarBytes : Bytes
  eTildeBytes : Bytes
  dBytes : Bytes
  challengeBytes : Bytes
  linkageTagBytes : Bytes
  responseCount : ℕ
deriving DecidableEq

/-- The length check and fixed-prefix slicing of `verify_proof_safe`
(lib.rs 458-473): the guard only requires 196 bytes, but the code then
slices up to byte 244, so byte 192-244 slices can panic; the response count
is bounded by `total + 10` before anything else is decoded. -/
def parseProofNums (proofB : Bytes) (total : ℕ) : RResult ProofRawParts :=
  if proofB.length < 196 then .rerr .InvalidSignature
  else
    match sliceB proofB 0 48 with
    | none => .panicked
    | some aPrimeBytes =>
      match sliceB proofB 48 96 with
      | none => .panicked
      | some abarBytes =>
        match sliceB proofB 96 128 with
        | none => .panicked
        | some eTildeBytes =>
          match sliceB proofB 128 160 with
          | none => .panicked
          | some dBytes =>
            match sliceB proofB 160 192 with
            | none => .panicked
            | some challengeBytes =>
              match sliceB proofB 192 240 with
              | none => .panicked
              | some linkageTagBytes =>
                match sliceB proofB 240 244 with
                | none => .panicked
                | some rcBytes =>
                  let responseCount := leNat rcBytes
                  if responseCount > total + 10 then .rerr .InvalidSignature
                  else .rok ⟨aPrimeBytes, abarBytes, eTildeBytes, dBytes,
                    challengeBytes, linkageTagBytes, responseCount⟩

/-- The parsing phase of `verify_proof_safe` (lib.rs 415-518): revealed-pair
length check, public key, fixed proof prefix, the six decoded fields and the
response scalars. -/
def parseProofPhase (g1P g2P : Bytes → Option Sc) (publicKey proofB : Bytes)
    (total : ℕ) (revealedIndices : List ℕ) (revealedContents : List Bytes) :
    RResult ParsedProof :=
  if revealedIndices.length ≠ revealedContents.length then .rerr .InvalidSignature
  else
    let revealedMessages := revealedIndices.zip revealedContents
    if publicKey.length < 96 then .rerr .InvalidKey
    else
      match g2P (publicKey.take 96) with
      | none => .rerr .InvalidKey
      | some w =>
        let hValues := parseHValues g1P publicKey
        match parseProofNums proofB total with
        | .panicked => .panicked
        | .rerr e => .rerr e
        | .rok parts =>
          match g1P parts.aPrimeBytes, g1P parts.abarBytes,
                scalarFromBytes parts.eTildeBytes, scalarFromBytes parts.dBytes,
                scalarFromBytes parts.challengeBytes, g1P parts.linkageTagBytes with
          | some aPrime, some abar, some eTilde, some d, some challenge, some linkageTag =>
            match parseResponses proofB parts.responseCount 244 with
            | .rok responses =>
              .rok ⟨w, hValues, aPrime, abar, eTilde, d, challenge, linkageTag,
                responses, revealedMessages⟩
            | .rerr e => .rerr e
            | .panicked => .panicked
          | _, _, _, _, _, _ => .rerr .InvalidSignature

/-- `verify_proof_safe` (lib.rs 404-597) at byte level: parse, then return
the challenge/pairing decision as a boolean. -/
def byteVerifyProof (sha : Bytes → Bytes) (g1P g2P : Bytes → Option Sc)
    (g1Ser : Sc → Bytes) (publicKey proofB : Bytes) (total : ℕ)
    (revealedIndices : List ℕ) (revealedContents : List Bytes) (nonce : Bytes)
    (aliasIndex : ℕ) (freshnessClaim : Option Bytes) : RResult Bool :=
  match parseProofPhase g1P g2P publicKey proofB total revealedIndices revealedContents with
  | .rok pp => .rok (proofDecision sha g1Ser pp total nonce aliasIndex freshnessClaim)
  | .rerr e => .rerr e
  | .panicked => .panicked

/-- Polynomial evaluation as in the share loop of `split_secret`
(lib.rs 748-755): `y = Σ coeff_i · x^i`, accumulating the power of `x`. -/
def polyEval (coeffs : List Sc) (x : Sc) : Sc :=
  (coeffs.foldl (fun acc c => (acc.1 + c * acc.2, acc.2 * x)) ((0 : Sc), (1 : Sc))).1

/-- `split_secret(secret, n, k)` (lib.rs 739-758): coefficients are the
secret followed by `k - 1` random draws (the `randoms` parameter), and one
share `(x, f(x))` is produced for each `x = 1..=n`. -/
def splitSecret (secret : Sc) (n k : ℕ) (randoms : List Sc) : List (ℕ × Sc) :=
  let coeffs := secret :: randoms.take (k - 1)
  (List.range n).map (fun i => (i + 1, polyEval coeffs ((i + 1 : ℕ) : Sc)))

/-- Numerator and denominator of the Lagrange basis for the `j`-th share
(lib.rs 769-781): `Π_{m≠j} (-x_m)` and `Π_{m≠j} (x_j - x_m)`. -/
def reconTerm (shares : List (ℕ × Sc)) (j : ℕ) (xj : Sc) : Sc × Sc :=
  shares.enum.foldl
    (fun acc mp =>
      if mp.1 = j then acc
      else (acc.1 * (-((mp.2.1 : ℕ) : Sc)), acc.2 * (xj - ((mp.2.1 : ℕ) : Sc))))
    ((1 : Sc), (1 : Sc))

/-- `reconstruct_secret` (lib.rs 761-792): Lagrange interpolation at zero,
failing on an empty share list or a non-invertible denominator
(`Scalar::invert` fails exactly on zero). -/
def reconstructSecret (shares : List (ℕ × Sc)) : Except String Sc :=
  if shares.isEmpty then .error "No shares provided"
  else
    shares.enum.foldl
      (fun acc jp =>
        match acc with
        | .error e => .error e
        | .ok s =>
          let xj : Sc := ((jp.2.1 : ℕ) : Sc)
          let nd := reconTerm shares jp.1 xj
          if nd.2 = 0 then .error "Invalid shares (duplicate indices?)"
          else .ok (s + jp.2.2 * (nd.1 * nd.2⁻¹)))
      (.ok 0)

/-- `split_secret_safe(secret, threshold, total)` (lib.rs 797-817).  Note
line 807: the inner call is `split_secret(&scalar, threshold, total)`, i.e.
`threshold` is passed as the share count `n` and `total` as the polynomial
degree bound `k`. -/
def splitSecretSafe (secret : Bytes) (threshold total : ℕ)
    (randoms : List Sc) : RResult (List Bytes) :=
  if secret.length ≠ 32 then .rerr .InvalidKey
  else
    match scalarFromBytes secret with
    | none => .rerr .InvalidKey
    | some scalar =>
      let shares := splitSecret scalar threshold total randoms
      .rok (shares.map (fun s => s.1 :: scalarToBytes s.2))

/-- One share parsed from its 33-byte encoding (lib.rs 822-831). -/
def parseShare (share : Bytes) : Option (ℕ × Sc) :=
  if share.length ≠ 33 then none
  else
    match share.head?, scalarFromBytes (share.drop 1) with
    | some idx, some s => some (idx, s)
    | _, _ => none

/-- The share-parsing loop of `reconstruct_secret_safe`: any malformed share
aborts with `InvalidKey`. -/
def parseShares : List Bytes → RResult (List (ℕ × Sc))
  | [] => .rok []
  | share :: rest =>
    match parseShare share with
    | none => .rerr .InvalidKey
    | some p =>
      match parseShares rest with
      | .rok ps => .rok (p :: ps)
      | .rerr e => .rerr e
      | .panicked => .panicked

/-- `reconstruct_secret_safe` (lib.rs 820-836): parse the shares,
interpolate, map inner errors to `CryptoError`, re-encode the scalar. -/
def reconstructSecretSafe (shares : List Bytes) : RResult Bytes :=
  match parseShares shares with
  | .rok parsed =>
    match reconstructSecret parsed with
    | .ok secret => .rok (scalarToBytes secret)
    | .error _ => .rerr .CryptoError
  | .rerr e => .rerr e
  | .panicked => .panicked

/-- The `DelegationToken` record (lib.rs 619-627). -/
structure DelegationToken where
  anchorId : Bytes
  mobileKey : Bytes
  expiration : ℕ
  tier : ℕ
  scopeMask : ℕ
  maxPassages : ℕ
deriving DecidableEq

/-- `DelegationToken::to_bytes` (lib.rs 630-643): plain concatenation
`anchor_id || mobile_key || expiration_LE(8) || tier || scope_mask_LE(4) ||
max_passages_LE(4)` — the fields are appended exactly as stored, with no
padding, truncation or length check. -/
def tokenToBytes (t : DelegationToken) : Bytes :=
  t.anchorId ++ t.mobileKey ++ natToLE 8 t.expiration ++ [t.tier] ++
    natToLE 4 t.scopeMask ++ natToLE 4 t.maxPassages

/-- `sign_delegation` (lib.rs 648-686) after byte-level key parsing:
`m = hash_to_scalar(SHA-256(token.to_bytes()))`, `B = g1 + h0·s + h1·m`,
`A = B·(sk+e)^{-1}` with a proper `CryptoError` on non-invertible `sk+e`.
`e`, `s` are the `Scalar::random` draws. -/
def signDelegationModel (sha : Bytes → Bytes) (sk h0 h1 : Sc)
    (token : DelegationToken) (e s : Sc) : RResult BbsSig :=
  let m := hashToScalar sha (sha (tokenToBytes token))
  let b := 1 + h0 * s + h1 * m
  if sk + e = 0 then .rerr .CryptoError
  else .rok ⟨b * (sk + e)⁻¹, e, s⟩

/-- `verify_delegation_signature` (lib.rs 690-731) after byte-level parsing:
checks `e(A, w + g2·e) == e(g1 + h0·s + h1·m, g2)`. -/
def verifyDelegationModel (sha : Bytes → Bytes) (w h0 h1 : Sc)
    (token : DelegationToken) (sig : BbsSig) : RResult Bool :=
  let m := hashToScalar sha (sha (tokenToBytes token))
  .rok (decide (pairingDL sig.a (w + sig.e) = pairingDL (1 + h0 * sig.s + h1 * m) 1))

/-- `MacroDataPoint` (miner.rs 24-30); the float `value` is modelled as a
rational. -/
structure MacroDataPoint where
  category : String
  value : ℚ
  timestamp : ℕ
  identityHash : String
deriving DecidableEq

/-- `AnonymityBuffer` (miner.rs 32-37); the `HashMap<String, usize>` of
identity counts is an association list with pairwise-distinct keys (the only
constructor, `bumpEntry`, preserves that). -/
structure AnonymityBuffer where
  category : String
  dataPoints : List MacroDataPoint
  uniqueIdentities : List (String × ℕ)
deriving DecidableEq

/-- `AnonymityBuffer::new` (miner.rs 40-46). -/
def newBuffer (category : String) : AnonymityBuffer := ⟨category, [], []⟩

/-- `*map.entry(k).or_insert(0) += 1` on the association list. -/
def bumpEntry : List (String × ℕ) → String → List (String × ℕ)
  | [], k => [(k, 1)]
  | (k', c) :: rest, k =>
    if k' = k then (k', c + 1) :: rest else (k', c) :: bumpEntry rest k

/-- `AnonymityBuffer::add_data_point` (miner.rs 48-51): bump the identity
counter, push the point at the back. -/
def addDataPoint (b : AnonymityBuffer) (p : MacroDataPoint) : AnonymityBuffer :=
  ⟨b.category, b.dataPoints ++ [p], bumpEntry b.uniqueIdentities p.identityHash⟩

/-- `AnonymityBuffer::unique_count` (miner.rs 53-55): size of the identity
map. -/
def uniqueCount (b : AnonymityBuffer) : ℕ := b.uniqueIdentities.length

/-- `K_ANONYMITY_THRESHOLD` (miner.rs 15). -/
def kAnonymityThreshold : ℕ := 15

/-- `MinerEngine::get_dynamic_threshold` (miner.rs 148-155). -/
def getDynamicThreshold (category : String) : ℕ :=
  if category = "HIV_STATUS" ∨ category = "POLITICAL_AFFILIATION" then
    kAnonymityThreshold * 2
  else if category = "AGE_BRACKET" ∨ category = "ZIP_CODE" then
    kAnonymityThreshold + 5
  else kAnonymityThreshold

/-- `MinerEngine::apply_differential_privacy` (miner.rs 164-192): add the
`k`-th Laplace draw (`noise k`, abstracting the inverse-CDF sampling) to the
`k`-th value, floor the timestamp to the hour, strip the identity hash. -/
def applyDifferentialPrivacy (noise : ℕ → ℚ) (pts : List MacroDataPoint) :
    List MacroDataPoint :=
  pts.enum.map (fun kp =>
    ⟨kp.2.category, kp.2.value + noise kp.1, kp.2.timestamp / 3600 * 3600, ""⟩)

/-- The miner state the claims touch: the per-category buffer map and the
vault's default tree (`store_in_vault` inserts under `"category:timestamp"`;
we record the inserted pairs in order). -/
structure MinerState where
  buffers : List (String × AnonymityBuffer)
  vault : List (String × MacroDataPoint)
deriving DecidableEq

/-- Update (or create) the buffer map entry for one category. -/
def setBuffer : List (String × AnonymityBuffer) → String → AnonymityBuffer →
    List (String × AnonymityBuffer)
  | [], c, b => [(c, b)]
  | (c', b') :: rest, c, b =>
    if c' = c then (c, b) :: rest else (c', b') :: setBuffer rest c b

/-- `MinerEngine::submit_macro_data` (miner.rs 101-144): hash the identity
(`hashId` abstracts hex(SHA-256)), append the point to the category buffer,
and when the distinct-identity count has reached the dynamic threshold,
drain the buffer (`flush`, miner.rs 72-76), apply differential privacy and
persist; otherwise return `None`.  `now` abstracts the wall clock. -/
def submitMacroData (hashId : Bytes → String) (noise : ℕ → ℚ) (now : ℕ)
    (st : MinerState) (category : String) (value : ℚ) (identity : Bytes) :
    Option (List MacroDataPoint) × MinerState :=
  let point : MacroDataPoint := ⟨category, value, now, hashId identity⟩
  let buffer := addDataPoint ((st.buffers.lookup category).getD (newBuffer category)) point
  let threshold := getDynamicThreshold category
  if threshold ≤ uniqueCount buffer then
    let readyData := buffer.dataPoints
    let flushed : AnonymityBuffer := ⟨buffer.category, [], []⟩
    let anonymized := applyDifferentialPrivacy noise readyData
    (some anonymized,
      ⟨setBuffer st.buffers category flushed,
        st.vault ++ anonymized.map (fun p => (p.category ++ ":" ++ toString p.timestamp, p))⟩)
  else (none, ⟨setBuffer st.buffers category buffer, st.vault⟩)

/-- Constant SHA-256 oracle used for concrete evaluations: every digest is
the all-zero 32-byte string (which decodes to the scalar `0`). -/
def shaZ : Bytes → Bytes := fun _ => List.replicate 32 0

/-- Content-sensitive SHA-256 oracle for concrete evaluations: the digest
starts with the first input byte. -/
def shaW : Bytes → Bytes := fun b => b.headD 7 :: List.replicate 31 0

/-- Trivial `to_compressed` oracle for concrete evaluations. -/
def serZ : Sc → Bytes := fun _ => []

/-- `G1` decompression oracle mapping every 48-byte chunk to the identity. -/
def g1Pz : Bytes → Option Sc := fun _ => some 0

/-- `G2` decompression oracle mapping every chunk to the generator. -/
def g2Pone : Bytes → Option Sc := fun _ => some 1

/-- Keys reached by `setBuffer` lookups: updating one category's buffer makes
it the value `lookup` finds for that category. -/
theorem lookup_setBuffer (l : List (String × AnonymityBuffer)) (c : String)
    (b : AnonymityBuffer) : (setBuffer l c b).lookup c = some b := by
  induction l with
  | nil => simp [setBuffer, List.lookup]
  | cons hd tl ih =>
    by_cases h : hd.1 = c
    · simp [setBuffer, h, List.lookup]
    · cases hd with
      | mk c' b' =>
        simp only at h
        have hne : (c == c') = false := beq_eq_false_iff_ne.mpr (Ne.symm h)
        simp [setBuffer, h, List.lookup, hne, ih]

/-- C3: the claim asserts that `sign` resamples when the drawn `e` makes
`sk + e` zero, and that sign/verify then always round-trips to `Ok(true)`.
The code instead substitutes `Scalar::ONE` for the missing inverse
(lib.rs 140, `invert().unwrap_or(Scalar::ONE)`): with `sk = 1`, one
generator `h0 = 2·g1`, no messages, `s = 1` and the entropy draw `e = -1`,
`sign` emits the signature `(A, e, s) = (B·1, -1, 1) = (3·g1, -1, 1)`
instead of resampling, and `verify_signature_safe` rejects it with
`Ok(false)`. -/
theorem sign_zero_denominator_not_resampled :
    signModel shaZ 1 [2] [] (-1) 1 = .rok ⟨3, -1, 1⟩ ∧
    verifySignatureModel shaZ 1 [2] ⟨3, -1, 1⟩ [] = .rok false := by
  constructor
  · decide
  · decide

/-- C10: `generate_linkage_tag` computes exactly the spec formula
`(sk + HashToScalar(SHA-256(site_id)))·g1`; the tag is a pure function of
`(sk, site_id)`, distinct secret keys give distinct tags for the same site,
and sites whose hashed scalars differ give distinct tags for the same key. -/
theorem linkage_tag_formula_and_injectivity (sha : Bytes → Bytes)
    (sk sk' : Sc) (site site' : Bytes) (hsk : sk ≠ sk')
    (hsite : hashToScalar sha (sha site) ≠ hashToScalar sha (sha site')) :
    generateLinkageTag sha sk site = linkageTagSpec sha sk site ∧
    generateLinkageTag sha sk site ≠ generateLinkageTag sha sk' site ∧
    generateLinkageTag sha sk site ≠ generateLinkageTag sha sk site' := by
  refine ⟨?_, ?_, ?_⟩
  · simp [generateLinkageTag, linkageTagSpec, mul_comm]
  · simp only [generateLinkageTag, one_mul]
    exact fun h => hsk (add_right_cancel h)
  · simp only [generateLinkageTag, one_mul]
    exact fun h => hsite (add_left_cancel h)

/-- Witness for C10 at concrete inputs: secret keys `0 ≠ 1` and sites `[]`,
`[5]` whose digests decode to the distinct scalars `7` and `5` under the
concrete oracle `shaW`. -/
theorem linkage_tag_formula_and_injectivity_witness :
    generateLinkageTag shaW 0 [] = linkageTagSpec shaW 0 [] ∧
    generateLinkageTag shaW 0 [] ≠ generateLinkageTag shaW 1 [] ∧
    generateLinkageTag shaW 0 [] ≠ generateLinkageTag shaW 0 [5] :=
  linkage_tag_formula_and_injectivity shaW 0 1 [] [5] (by decide) (by decide)

/-- C4: `split_secret_safe(secret, threshold, total)` forwards its arguments
to `split_secret(&scalar, n, k)` in the wrong order (lib.rs 807), so with
`threshold = 1`, `total = 2` and the zero secret it produces a single share
`(1, f(1))` of the degree-one polynomial `f(x) = 0 + c1·x` (here with random
coefficient `c1 = 1`) instead of two shares of a constant polynomial, and
reconstructing from that 1-element share subset returns the encoding of the
scalar `1`, not the original all-zero secret. -/
theorem split_secret_safe_swapped_args :
    splitSecretSafe (List.replicate 32 0) 1 2 [1] = .rok [1 :: scalarToBytes 1] ∧
    reconstructSecretSafe [1 :: scalarToBytes 1] = .rok (scalarToBytes 1) ∧
    scalarToBytes (1 : Sc) ≠ List.replicate 32 0 := by
  refine ⟨by decide, ?_, by decide⟩
  have h1 : parseShares [1 :: scalarToBytes 1] = .rok [(1, (1 : Sc))] := by decide
  have h2 : reconstructSecret [(1, (1 : Sc))] = .ok (0 + (1 : Sc) * (1 * 1⁻¹)) := rfl
  have h3 : reconstructSecret [(1, (1 : Sc))] = .ok 1 := by
    rw [h2, ZMod.inv_one]
    norm_num
  simp only [reconstructSecretSafe, h1, h3]

set_option maxRecDepth 10000 in
/-- C8: `DelegationToken::to_bytes` neither zero-pads nor rejects
out-of-length fields (lib.rs 630-643 appends the fields as stored): a token
with empty `anchor_id` and `mobile_key` serializes to 17 bytes instead of
the canonical 145, and `sign_delegation` happily hashes and signs that
17-byte encoding instead of erroring. -/
theorem token_to_bytes_not_padded :
    (tokenToBytes ⟨List.replicate 32 0, List.replicate 96 0, 0, 0, 0, 0⟩).length = 145 ∧
    (tokenToBytes ⟨[], [], 0, 0, 0, 0⟩).length = 17 ∧
    signDelegationModel shaZ 1 0 0 ⟨[], [], 0, 0, 0, 0⟩ 0 1 = .rok ⟨1, 0, 1⟩ := by
  refine ⟨by decide, by decide, ?_⟩
  have h : signDelegationModel shaZ 1 0 0 ⟨[], [], 0, 0, 0, 0⟩ 0 1 =
      .rok ⟨(1 + 0 * 1 + 0 * hashToScalar shaZ (shaZ (tokenToBytes ⟨[], [], 0, 0, 0, 0⟩))) *
        ((1 : Sc) + 0)⁻¹, 0, 1⟩ := rfl
  rw [h]
  norm_num [hashToScalar, ZMod.inv_one]

/-- C7: a `submit_macro_data` call returns `Ok(None)` and persists nothing
while the category buffer's distinct-identity count (after the new point is
added) is still below the dynamic threshold; the call at which the count
reaches the threshold returns the whole buffered batch, leaves the category
buffer with no data points and no identity counters, and appends the noised
batch to the vault.  The dynamic thresholds are 30 for `HIV_STATUS` and
`POLITICAL_AFFILIATION`, 20 for `AGE_BRACKET` and `ZIP_CODE`, and 15
otherwise (e.g. `GENDER`). -/
theorem submit_macro_data_gate (hashId : Bytes → String) (noise : ℕ → ℚ)
    (now : ℕ) (st : MinerState) (category : String) (value : ℚ)
    (identity : Bytes) :
    (let point : MacroDataPoint := ⟨category, value, now, hashId identity⟩
     let newBuf := addDataPoint ((st.buffers.lookup category).getD (newBuffer category)) point
     let result := submitMacroData hashId noise now st category value identity
     (result.1 = if getDynamicThreshold category ≤ uniqueCount newBuf
        then some (applyDifferentialPrivacy noise newBuf.dataPoints) else none) ∧
     (result.2.vault = if getDynamicThreshold category ≤ uniqueCount newBuf
        then st.vault ++ (applyDifferentialPrivacy noise newBuf.dataPoints).map
          (fun p => (p.category ++ ":" ++ toString p.timestamp, p))
        else st.vault) ∧
     (result.2.buffers.lookup category =
        some (if getDynamicThreshold category ≤ uniqueCount newBuf
          then ⟨newBuf.category, [], []⟩ else newBuf))) ∧
    getDynamicThreshold "HIV_STATUS" = 30 ∧
    getDynamicThreshold "POLITICAL_AFFILIATION" = 30 ∧
    getDynamicThreshold "AGE_BRACKET" = 20 ∧
    getDynamicThreshold "ZIP_CODE" = 20 ∧
    getDynamicThreshold "GENDER" = 15 := by
  refine ⟨?_, by decide, by decide, by decide, by decide, by decide⟩
  by_cases h : getDynamicThreshold category ≤
      uniqueCount (addDataPoint ((st.buffers.lookup category).getD (newBuffer category))
        ⟨category, value, now, hashId identity⟩)
  · simp [submitMacroData, h, lookup_setBuffer]
  · simp [submitMacroData, h, lookup_setBuffer]

/-- A proof of at least 244 bytes whose response-count field exceeds
`total + 10` is rejected by the prefix parser with `InvalidSignature`,
before any response scalar (or any point or scalar of the prefix) is
decoded. -/
theorem parseProofNums_count_exceeded (proofB : Bytes) (total : ℕ)
    (hlen : 244 ≤ proofB.length)
    (hcount : total + 10 < leNat ((proofB.drop 240).take 4)) :
    parseProofNums proofB total = .rerr .InvalidSignature := by
  have h1 : ¬ proofB.length < 196 := by omega
  simp [parseProofNums, sliceB, h1,
    show (48 : ℕ) ≤ proofB.length by omega,
    show (96 : ℕ) ≤ proofB.length by omega,
    show (128 : ℕ) ≤ proofB.length by omega,
    show (160 : ℕ) ≤ proofB.length by omega,
    show (192 : ℕ) ≤ proofB.length by omega,
    show (240 : ℕ) ≤ proofB.length by omega,
    show (244 : ℕ) ≤ proofB.length from hlen, hcount]

/-- C6: for every proof of at least 244 bytes whose little-endian `u32`
response count at bytes 240..244 exceeds `total_message_count + 10`,
`verify_proof_safe` returns `Err(InvalidSignature)` (for any public key
whose `w` point parses; a mismatched revealed-pair length also produces
`Err(InvalidSignature)` earlier), and in particular the result does not
depend on the response bytes. -/
theorem verify_proof_response_count_bound (sha : Bytes → Bytes)
    (g1P g2P : Bytes → Option Sc) (g1Ser : Sc → Bytes)
    (publicKey proofB : Bytes) (total : ℕ) (revealedIndices : List ℕ)
    (revealedContents : List Bytes) (nonce : Bytes) (aliasIndex : ℕ)
    (freshnessClaim : Option Bytes)
    (hpk : 96 ≤ publicKey.length)
    (hw : (g2P (publicKey.take 96)).isSome)
    (hlen : 244 ≤ proofB.length)
    (hcount : total + 10 < leNat ((proofB.drop 240).take 4)) :
    byteVerifyProof sha g1P g2P g1Ser publicKey proofB total revealedIndices
      revealedContents nonce aliasIndex freshnessClaim = .rerr .InvalidSignature := by
  have hnums := parseProofNums_count_exceeded proofB total hlen hcount
  obtain ⟨w, hw'⟩ := Option.isSome_iff_exists.mp hw
  by_cases hrv : revealedIndices.length ≠ revealedContents.length
  · simp [byteVerifyProof, parseProofPhase, hrv]
  · simp [byteVerifyProof, parseProofPhase, hrv, Nat.not_lt.mpr hpk, hw', hnums]

set_option maxRecDepth 40000 in
/-- Witness for C6: the all-zero 96-byte public key under the concrete
oracles, and a 244-byte proof whose count field holds 11 with
`total_message_count = 0`. -/
theorem verify_proof_response_count_bound_witness :
    byteVerifyProof shaZ g1Pz g2Pone serZ (List.replicate 96 0)
      (List.replicate 240 0 ++ [11, 0, 0, 0]) 0 [] [] [] 0 none =
      .rerr .InvalidSignature :=
  verify_proof_response_count_bound shaZ g1Pz g2Pone serZ _ _ 0 [] [] [] 0 none
    (by decide) (by decide) (by decide) (by decide)

set_option maxRecDepth 40000 in
/-- C5: the claim says every proof shorter than the 244-byte prefix is

rejected with `Err(InvalidSignature)` and no panic.  The code's guard
(lib.rs 458) only requires 196 bytes, yet lib.rs 467 then slices
`proof[192..240]`: a 196-byte all-zero proof (with a public key whose `w`
parses) drives `verify_proof_safe` into an out-of-bounds slice panic instead
of an error, while a 195-byte proof still gets the claimed error. -/
theorem verify_proof_short_proof_panics :
    byteVerifyProof shaZ g1Pz g2Pone serZ (List.replicate 96 0)
      (List.replicate 196 0) 0 [] [] [] 0 none = .panicked ∧
    byteVerifyProof shaZ g1Pz g2Pone serZ (List.replicate 96 0)
      (List.replicate 195 0) 0 [] [] [] 0 none = .rerr .InvalidSignature := by
  constructor
  · decide
  · decide

/-- C9: once every input has parsed, neither verifier can return an error:
`verify_signature_safe` returns `Ok` of its pairing decision, and
`verify_proof_safe` returns `Ok` of its challenge-and-pairing decision;
moreover each decision is `false` — not an error — on a failed pairing
equality, and the proof decision is `false` on a Fiat–Shamir challenge
mismatch. -/
theorem crypto_inequality_returns_false (sha : Bytes → Bytes)
    (g1P g2P : Bytes → Option Sc) (g1Ser : Sc → Bytes)
    (pk1 sig : Bytes) (messages : List Bytes)
    (pk2 proofB : Bytes) (total : ℕ) (revealedIndices : List ℕ)
    (revealedContents : List Bytes) (nonce : Bytes) (aliasIndex : ℕ)
    (freshnessClaim : Option Bytes) (ps : ParsedSig) (pp : ParsedProof)
    (hp : parseSignaturePhase g1P g2P pk1 sig messages = .rok ps)
    (hq : parseProofPhase g1P g2P pk2 proofB total revealedIndices
      revealedContents = .rok pp) :
    byteVerifySignature sha g1P g2P pk1 sig messages =
      .rok (signatureDecision sha ps.w ps.hValues ⟨ps.a, ps.e, ps.s⟩ messages) ∧
    byteVerifyProof sha g1P g2P g1Ser pk2 proofB total revealedIndices
        revealedContents nonce aliasIndex freshnessClaim =
      .rok (proofDecision sha g1Ser pp total nonce aliasIndex freshnessClaim) ∧
    (pairingDL ps.a (ps.w + ps.e) ≠
        pairingDL (bValue ps.hValues ps.s (messages.map (hashToScalar sha))) 1 →
      signatureDecision sha ps.w ps.hValues ⟨ps.a, ps.e, ps.s⟩ messages = false) ∧
    (pp.challenge ≠ challengeCheckOf sha g1Ser pp nonce aliasIndex freshnessClaim →
      proofDecision sha g1Ser pp total nonce aliasIndex freshnessClaim = false) ∧
    (pairingDL pp.aPrime (pp.w + pp.eTilde) ≠ pairingDL (proofRhsSum sha pp) 1 →
      proofDecision sha g1Ser pp total nonce aliasIndex freshnessClaim = false) := by
  refine ⟨?_, ?_, ?_, ?_, ?_⟩
  · simp [byteVerifySignature, hp]
  · simp [byteVerifyProof, hq]
  · intro h
    simp [signatureDecision, h]
  · intro h
    simp [proofDecision, h]
  · intro h
    simp [proofDecision, h]

set_option maxRecDepth 60000 in
/-- Witness for C9: an all-zero 144-byte public key, 112-byte signature and
244-byte proof all parse under the concrete oracles, with parse results
`⟨1, [0], 0, 0, 0⟩` and `⟨1, [0], 0, 0, 0, 0, 0, 0, [], []⟩`. -/
theorem crypto_inequality_returns_false_witness :
    byteVerifySignature shaZ g1Pz g2Pone (List.replicate 144 0)
        (List.replicate 112 0) [] =
      .rok (signatureDecision shaZ 1 [0] ⟨0, 0, 0⟩ []) ∧
    byteVerifyProof shaZ g1Pz g2Pone serZ (List.replicate 144 0)
        (List.replicate 244 0) 0 [] [] [] 0 none =
      .rok (proofDecision shaZ serZ ⟨1, [0], 0, 0, 0, 0, 0, 0, [], []⟩ 0 [] 0 none) ∧
    (pairingDL 0 ((1 : Sc) + 0) ≠
        pairingDL (bValue [0] 0 (([] : List Bytes).map (hashToScalar shaZ))) 1 →
      signatureDecision shaZ 1 [0] ⟨0, 0, 0⟩ [] = false) ∧
    ((0 : Sc) ≠ challengeCheckOf shaZ serZ ⟨1, [0], 0, 0, 0, 0, 0, 0, [], []⟩ [] 0 none →
      proofDecision shaZ serZ ⟨1, [0], 0, 0, 0, 0, 0, 0, [], []⟩ 0 [] 0 none = false) ∧
    (pairingDL 0 ((1 : Sc) + 0) ≠
        pairingDL (proofRhsSum shaZ ⟨1, [0], 0, 0, 0, 0, 0, 0, [], []⟩) 1 →
      proofDecision shaZ serZ ⟨1, [0], 0, 0, 0, 0, 0, 0, [], []⟩ 0 [] 0 none = false) :=
  crypto_inequality_returns_false shaZ g1Pz g2Pone serZ (List.replicate 144 0)
    (List.replicate 112 0) [] (List.replicate 144 0) (List.replicate 244 0) 0 [] [] [] 0 none
    ⟨1, [0], 0, 0, 0⟩ ⟨1, [0], 0, 0, 0, 0, 0, 0, [], []⟩ (by decide) (by decide)

set_option maxRecDepth 60000 in
/-- C1: the claim says every honestly created proof verifies as `Ok(true)`.
It does not: take `sk = 1` (so `w = g2`), one generator `h0 = 2·g1`, no
messages, and the valid signature `(A, e, s) = (3·g1, 0, 1)` (it satisfies
`A·(sk+e) = g1 + h0·s = B`, and `verify_signature_safe` accepts it).  An
honest `create_proof` run with entropy `r1 = 1`, `r2 = 3` and matching
verifier inputs (empty nonce, `alias_index = 0`, no freshness claim) yields
the proof `(A' = 3, Abar = -3, ẽ = 0, d = 4, c = 0, tag = 0, [])`; the
verifier's challenge recomputation matches, but its pairing check compares
`e(A', w + g2·ẽ) = e(g1,g2)^3` with `e(Abar + h0·d, g2) = e(g1,g2)^5` and
returns `Ok(false)`: the verification equation of lib.rs 575-596 is not
satisfied by honestly generated proofs. -/
theorem honest_proof_fails_verification :
    verifySignatureModel shaZ 1 [2] ⟨3, 0, 1⟩ [] = .rok true ∧
    createProofModel shaZ serZ [2] ⟨3, 0, 1⟩ [] [] none [] 0 none none [] 1 3
        (fun _ => 0) = .rok ⟨3, -3, 0, 4, 0, 0, []⟩ ∧
    (0 : Sc) = challengeCheckOf shaZ serZ ⟨1, [2], 3, -3, 0, 4, 0, 0, [], []⟩ [] 0 none ∧
    proofDecision shaZ serZ ⟨1, [2], 3, -3, 0, 4, 0, 0, [], []⟩ 0 [] 0 none = false := by
  refine ⟨by decide, ?_, by decide, by decide⟩
  have h2 : createProofModel shaZ serZ [2] ⟨3, 0, 1⟩ [] [] none [] 0 none none [] 1 3
      (fun _ => 0) = .rok ⟨3, -3, 0 * (1 : Sc)⁻¹, 4, 0, 0, []⟩ := rfl
  rw [h2]
  norm_num

/-- Two byte strings agreeing on their first 244 bytes agree on any
sub-slice lying inside that prefix. -/
theorem take_drop_of_take_eq {l1 l2 : Bytes} (hpre : l1.take 244 = l2.take 244)
    {a k : ℕ} (hk : a + k ≤ 244) : (l1.drop a).take k = (l2.drop a).take k := by
  have h1 : ((l1.take 244).drop a).take k = ((l2.take 244).drop a).take k := by
    rw [hpre]
  rw [List.drop_take, List.drop_take, List.take_take, List.take_take] at h1
  rwa [min_eq_left (by omega)] at h1

/-- Rust slices with bounds inside the 244-byte prefix are determined by
that prefix and the total length. -/
theorem sliceB_within_head (l1 l2 : Bytes) (a b : ℕ) (hb : b ≤ 244)
    (hpre : l1.take 244 = l2.take 244) (hlen : l1.length = l2.length) :
    sliceB l1 a b = sliceB l2 a b := by
  unfold sliceB
  rw [hlen]
  by_cases h : b ≤ l2.length
  · rw [if_pos h, if_pos h]
    by_cases hab : a ≤ b
    · rw [take_drop_of_take_eq hpre (by omega)]
    · have hz : b - a = 0 := by omega
      simp [hz]
  · rw [if_neg h, if_neg h]

/-- The fixed-prefix parse of a proof depends only on its first 244 bytes
and its length. -/
theorem parseProofNums_congr (l1 l2 : Bytes) (total : ℕ)
    (hpre : l1.take 244 = l2.take 244) (hlen : l1.length = l2.length) :
    parseProofNums l1 total = parseProofNums l2 total := by
  unfold parseProofNums
  rw [sliceB_within_head l1 l2 0 48 (by omega) hpre hlen,
    sliceB_within_head l1 l2 48 96 (by omega) hpre hlen,
    sliceB_within_head l1 l2 96 128 (by omega) hpre hlen,
    sliceB_within_head l1 l2 128 160 (by omega) hpre hlen,
    sliceB_within_head l1 l2 160 192 (by omega) hpre hlen,
    sliceB_within_head l1 l2 192 240 (by omega) hpre hlen,
    sliceB_within_head l1 l2 240 244 (by omega) hpre hlen, hlen]

/-- When every in-range 32-byte chunk of the response regions of two
equal-length proofs decodes to a canonical scalar, the response-parsing
loop either succeeds on both (with possibly different scalars) or fails on
both with `InvalidSignature` (at the same out-of-range position). -/
theorem parseResponses_sync (l1 l2 : Bytes) (hlen : l1.length = l2.length) :
    ∀ (count off : ℕ),
    (∀ i, i < count → off + 32 * (i + 1) ≤ l1.length →
        (scalarFromBytes ((l1.drop (off + 32 * i)).take 32)).isSome ∧
        (scalarFromBytes ((l2.drop (off + 32 * i)).take 32)).isSome) →
    (∃ rs1 rs2, parseResponses l1 count off = .rok rs1 ∧
      parseResponses l2 count off = .rok rs2) ∨
    (parseResponses l1 count off = .rerr .InvalidSignature ∧
      parseResponses l2 count off = .rerr .InvalidSignature) := by
  intro count
  induction count with
  | zero =>
    intro off _
    exact Or.inl ⟨[], [], rfl, rfl⟩
  | succ n ih =>
    intro off h
    by_cases hoff : off + 32 > l1.length
    · right
      constructor
      · simp [parseResponses, hoff]
      · simp [parseResponses, hlen ▸ hoff]
    · have hc := h 0 (by omega) (by omega)
      rw [show off + 32 * 0 = off by ring] at hc
      obtain ⟨r1, hr1⟩ := Option.isSome_iff_exists.mp hc.1
      obtain ⟨r2, hr2⟩ := Option.isSome_iff_exists.mp hc.2
      have h' : ∀ i, i < n → (off + 32) + 32 * (i + 1) ≤ l1.length →
          (scalarFromBytes ((l1.drop ((off + 32) + 32 * i)).take 32)).isSome ∧
          (scalarFromBytes ((l2.drop ((off + 32) + 32 * i)).take 32)).isSome := by
        intro i hi hle
        have hx := h (i + 1) (by omega) (by omega)
        rwa [show off + 32 * (i + 1) = (off + 32) + 32 * i by ring] at hx
      rcases ih (off + 32) h' with ⟨rs1, rs2, e1, e2⟩ | ⟨e1, e2⟩
      · left
        refine ⟨r1 :: rs1, r2 :: rs2, ?_, ?_⟩
        · simp [parseResponses, hoff, hr1, e1]
        · simp [parseResponses, hlen ▸ hoff, hr2, e2]
      · right
        constructor
        · simp [parseResponses, hoff, hr1, e1]
        · simp [parseResponses, hlen ▸ hoff, hr2, e2]

/-- The verifier's decision does not depend on the parsed response scalars:
the only place they enter is the dead `c_recomputed` computation. -/
theorem proofDecision_responses_irrelevant (sha : Bytes → Bytes)
    (g1Ser : Sc → Bytes) (w : Sc) (hValues : List Sc)
    (aPrime abar eTilde d challenge linkageTag : Sc) (rs1 rs2 : List Sc)
    (revealed : List (ℕ × Bytes)) (total : ℕ) (nonce : Bytes)
    (aliasIndex : ℕ) (freshnessClaim : Option Bytes) :
    proofDecision sha g1Ser
      ⟨w, hValues, aPrime, abar, eTilde, d, challenge, linkageTag, rs1, revealed⟩
      total nonce aliasIndex freshnessClaim =
    proofDecision sha g1Ser
      ⟨w, hValues, aPrime, abar, eTilde, d, challenge, linkageTag, rs2, revealed⟩
      total nonce aliasIndex freshnessClaim := rfl

/-- C2: two equal-length proofs identical on bytes 0..244 and with all
in-range response chunks canonically encoded produce the same
`verify_proof_safe` result for identical remaining arguments: neither the
response scalars nor the commitment recomputed from them influence
acceptance. -/
theorem verify_proof_ignores_responses (sha : Bytes → Bytes)
    (g1P g2P : Bytes → Option Sc) (g1Ser : Sc → Bytes) (publicKey : Bytes)
    (p1 p2 : Bytes) (total : ℕ) (revealedIndices : List ℕ)
    (revealedContents : List Bytes) (nonce : Bytes) (aliasIndex : ℕ)
    (freshnessClaim : Option Bytes)
    (hlen : p1.length = p2.length)
    (hpre : p1.take 244 = p2.take 244)
    (hcanon : ∀ i, 244 + 32 * (i + 1) ≤ p1.length →
        (scalarFromBytes ((p1.drop (244 + 32 * i)).take 32)).isSome ∧
        (scalarFromBytes ((p2.drop (244 + 32 * i)).take 32)).isSome) :
    byteVerifyProof sha g1P g2P g1Ser publicKey p1 total revealedIndices
      revealedContents nonce aliasIndex freshnessClaim =
    byteVerifyProof sha g1P g2P g1Ser publicKey p2 total revealedIndices
      revealedContents nonce aliasIndex freshnessClaim := by
  unfold byteVerifyProof parseProofPhase
  by_cases hrv : revealedIndices.length ≠ revealedContents.length
  · simp [hrv]
  · by_cases hpk : publicKey.length < 96
    · simp [hrv, hpk]
    · cases hg2 : g2P (publicKey.take 96) with
      | none => simp [hrv, hpk, hg2]
      | some w =>
        simp only [parseProofNums_congr p1 p2 total hpre hlen]
        cases hn : parseProofNums p2 total with
        | panicked => simp [hrv, hpk, hg2, hn]
        | rerr e => simp [hrv, hpk, hg2, hn]
        | rok parts =>
          rcases parseResponses_sync p1 p2 hlen parts.responseCount 244
              (fun i _ hle => hcanon i hle) with ⟨rs1, rs2, e1, e2⟩ | ⟨e1, e2⟩
          · simp only [hrv, hpk, hg2, hn, e1, e2, if_neg, reduceIte]
            cases hA : g1P parts.aPrimeBytes with
            | none => simp
            | some aP =>
              cases hB : g1P parts.abarBytes with
              | none => simp
              | some ab =>
                cases hE : scalarFromBytes parts.eTildeBytes with
                | none => simp
                | some eT =>
                  cases hD : scalarFromBytes parts.dBytes with
                  | none => simp
                  | some dV =>
                    cases hC : scalarFromBytes parts.challengeBytes with
                    | none => simp
                    | some ch =>
                      cases hL : g1P parts.linkageTagBytes with
                      | none => simp
                      | some lt =>
                        simp [proofDecision_responses_irrelevant sha g1Ser w
                          (parseHValues g1P publicKey) aP ab eT dV ch lt rs1 rs2]
          · simp [hrv, hpk, hg2, hn, e1, e2]

set_option maxRecDepth 60000 in
/-- Witness for C2: two 276-byte proofs sharing the same 244-byte prefix
(with response count 1) and differing only in the single response chunk
(scalar 0 versus scalar 2) give the same verification result. -/
theorem verify_proof_ignores_responses_witness :
    byteVerifyProof shaZ g1Pz g2Pone serZ (List.replicate 96 0)
      (List.replicate 240 0 ++ [1, 0, 0, 0] ++ List.replicate 32 0) 0 [] [] [] 0 none =
    byteVerifyProof shaZ g1Pz g2Pone serZ (List.replicate 96 0)
      (List.replicate 240 0 ++ [1, 0, 0, 0] ++ (2 :: List.replicate 31 0)) 0 [] [] [] 0 none :=
  verify_proof_ignores_responses shaZ g1Pz g2Pone serZ (List.replicate 96 0)
    (List.replicate 240 0 ++ [1, 0, 0, 0] ++ List.replicate 32 0)
    (List.replicate 240 0 ++ [1, 0, 0, 0] ++ (2 :: List.replicate 31 0))
    0 [] [] [] 0 none (by decide) (by decide)
    (fun i hle => by
      have hi : i = 0 := by
        have := hle
        simp [List.length_append] at this
        omega
      subst hi
      exact ⟨by decide, by decide⟩)
